import Mathlib

/-!
Shallow embedding of the yamloom/lupo CI-pipeline builder.

The repository is a Python library that builds CI workflow documents.
Pure option-normalising and path-resolving functions are embedded as Lean
functions; constructors that can raise become `Except String` computations;
Python `None` becomes `Option.none`; Python dicts preserving insertion order
become association lists.  For the parts of the core package that are not in
the repository sources (the Job/Step/Permissions classes and the serializer),
definitions are modelled from the specification and marked as such.
-/

namespace Yamloom

/-- Semantic refinement of an Expression, from the spec's data model:
string-like, boolean-like or number-like. -/
inductive ExprKind where
  | string
  | boolean
  | number
  deriving DecidableEq

/-- Modelled from the spec: an Expression is a lazy reference into the
pipeline runtime context, carrying "a path (sequence of field-accessor
names/indices) and an optional declared semantic type".  The Expression
class itself (`yamloom.expressions`) is not under the repository sources;
only its path and kind matter to the claims below. -/
structure Expression where
  path : List String
  kind : ExprKind
  deriving DecidableEq

/-- A value that is either a literal string or an Expression
(Python type alias `StringLike = Union[str, StringExpression]`). -/
inductive StrLike where
  | lit (s : String)
  | expr (e : Expression)
  deriving DecidableEq

/-- A value that is either a literal int or an Expression
(Python type alias `IntLike = Union[int, NumberExpression]`). -/
inductive IntLike where
  | lit (n : Int)
  | expr (e : Expression)
  deriving DecidableEq

/-- A value that is either a literal bool or an Expression
(Python type alias `BoolLike = Union[bool, BooleanExpression]`). -/
inductive BoolLike where
  | lit (b : Bool)
  | expr (e : Expression)
  deriving DecidableEq

/-- A Python object stored as a value of a wrapper's option mapping. -/
inductive Value where
  | vstr (s : String)
  | vint (n : Int)
  | vbool (b : Bool)
  | vexpr (e : Expression)
  deriving DecidableEq

def StrLike.toValue : StrLike → Value
  | .lit s => .vstr s
  | .expr e => .vexpr e

def IntLike.toValue : IntLike → Value
  | .lit n => .vint n
  | .expr e => .vexpr e

def BoolLike.toValue : BoolLike → Value
  | .lit b => .vbool b
  | .expr e => .vexpr e

/-- Embedding of Python's `sep.join(items)`. -/
def strJoin (sep : String) : List String → String
  | [] => ""
  | [x] => x
  | x :: y :: rest => x ++ sep ++ strJoin sep (y :: rest)

/-- `seqPrefixB sub l` decides whether the character sequence `sub`
starts the sequence `l`. -/
def seqPrefixB : List Char → List Char → Bool
  | [], _ => true
  | _ :: _, [] => false
  | a :: as, b :: bs => if a = b then seqPrefixB as bs else false

/-- `containsSeqB sub l` decides whether `sub` occurs contiguously in `l`;
this embeds Python's substring test `sub in s`. -/
def containsSeqB (sub : List Char) : List Char → Bool
  | [] => decide (sub = [])
  | c :: rest => seqPrefixB sub (c :: rest) || containsSeqB sub rest

/-- Python's `sub in s` on strings. -/
def strContains (s sub : String) : Bool :=
  containsSeqB sub.data s.data

/-- The message built by `validate_choice` on a rejected literal
(src/python/lupo/actions/utils.py): each choice is quoted, more than two
choices are comma-separated with an Oxford ", or", two or fewer are joined
with " or ", and the result is prefixed with the quoted option name. -/
def choiceMessage (option_name : String) (choices : List String) : String :=
  let quoted_choices := choices.map (fun c => "\x27" ++ c ++ "\x27")
  let choices_str :=
    if choices.length > 2 then
      strJoin ", " quoted_choices.dropLast ++ ", or " ++
        (quoted_choices.getLast?.getD "")
    else
      strJoin " or " quoted_choices
  "\x27" ++ option_name ++ "\x27 must be " ++ choices_str

/-- Embedding of `validate_choice` (src/python/lupo/actions/utils.py):
a non-None literal string is lowercased, but membership in `choices` is
tested on the original `option_value`; a failure raises `ValueError` with
`choiceMessage`; an Expression value is returned unchanged; `None` stays
`None`. -/
def validate_choice (option_name : String) (option_value : Option StrLike)
    (choices : List String) : Except String (Option StrLike) :=
  match option_value with
  | some (.lit s) =>
      let lowered := s.toLower
      if s ∉ choices then
        .error (choiceMessage option_name choices)
      else
        .ok (some (.lit lowered))
  | some (.expr e) => .ok (some (.expr e))
  | none => .ok none

/-- Embedding of `check_string` (src/python/lupo/actions/utils.py): returns
the value when it is a `str` not containing the interpolation opener, else
`None`.  The argument is an entry of an option mapping (or `None` when the
looked-up key is absent). -/
def check_string (s : Option Value) : Option String :=
  match s with
  | some (.vstr s) => if strContains s "$\x7b\x7b" then none else some s
  | _ => none

/-- `isError r` is true when the computation raised. -/
def isError {α : Type} : Except String α → Bool
  | .error _ => true
  | .ok _ => false

/-- Default definition-script filenames tried by the CLI
(src/python/lupo/__main__.py, `DEFAULT_CANDIDATES`). -/
def DEFAULT_CANDIDATES : List String := [".lupo.py", "lupo.py"]

/-- Python truthiness of an optional string: `None` and the empty string
are falsy. -/
def truthy : Option String → Bool
  | some s => s ≠ ""
  | none => false

/-- Embedding of `resolve_target` (src/python/lupo/__main__.py).  The
filesystem is abstracted as the list `fs` of existing paths and the
`LUPO_FILE` environment variable as `env`.  The explicit `--file` value is
returned when truthy, else the environment value when truthy, else the
first default candidate that exists; otherwise `FileNotFoundError` is
raised. -/
def resolve_target (explicit env : Option String) (fs : List String) :
    Except String String :=
  if truthy explicit then .ok (explicit.getD "")
  else if truthy env then .ok (env.getD "")
  else
    match DEFAULT_CANDIDATES.find? (fun c => fs.contains c) with
    | some path => .ok path
    | none =>
        .error ("Could not find workflow generator. Tried: " ++
          strJoin ", " DEFAULT_CANDIDATES ++
          ". Set --file or LUPO_FILE to override.")

/-- Embedding of `main` (src/python/lupo/__main__.py), as the exit status
it returns.  `runExit` is the subprocess's return code.  A resolution
failure is printed to stderr (I/O not modelled) and yields 2; a resolved
target that does not exist also yields 2; otherwise the subprocess runs
and its return code is passed through. -/
def main (fileArg env : Option String) (fs : List String) (runExit : Int) :
    Int :=
  match resolve_target fileArg env fs with
  | .error _ => 2
  | .ok target => if fs.contains target then runExit else 2

/-- A constructed Step, recording the arguments the wrapper constructors
pass to the (core) `ActionStep.__new__`: display name, action identifier,
version ref, and the filtered option mapping (`with_opts`, `None` when no
option survives filtering).  Option-mapping values are `Option Value` as
in the Python dicts, whose entries can be `None` before filtering. -/
structure Step where
  name : String
  action : String
  ref : String
  with_opts : Option (List (String × Option Value))
  deriving DecidableEq

/-- Python `dict.get(k)`: the stored value when the key is present,
`None` otherwise. -/
def optGet (options : List (String × Option Value)) (k : String) :
    Option Value :=
  match options.lookup k with
  | some v => v
  | none => none

/-- Python `{k: v for k, v in options.items() if v is not None}`. -/
def filterAbsent (options : List (String × Option Value)) :
    List (String × Option Value) :=
  options.filter (fun kv => kv.2.isSome)

/-- Python `options or None` on the filtered mapping: an empty dict is
falsy and becomes `None`. -/
def orNone (options : List (String × Option Value)) :
    Option (List (String × Option Value)) :=
  if options = [] then none else some options

/-- Modelled from the spec: rendering an Expression to the platform's
interpolation syntax (the serializer is not under the repository sources);
the path is rendered as dotted field access inside the `$` braces. -/
def renderExpression (e : Expression) : String :=
  "$\x7b\x7b " ++ strJoin "." e.path ++ " \x7d\x7d"

/-- Python `str(s)` on a StringLike: a literal is itself, an Expression
renders as its interpolation syntax. -/
def StrLike.str : StrLike → String
  | .lit s => s
  | .expr e => renderExpression e

/-- Embedding of `Checkout.__new__`
(src/python/yamloom/actions/github/scm.py): the option mapping is built in
source key order, `None` entries are filtered, and when `name` is unset a
default is derived from the `repository` option via `check_string` —
a truthy plain literal gives "Checkout '<repository>'", anything else the
generic "Checkout Repository". -/
def Checkout.new (name : Option StrLike) (version : String)
    (repository ref token ssh_key ssh_known_hosts : Option StrLike)
    (ssh_strict : Option BoolLike) (ssh_user : Option StrLike)
    (persist_credentials : Option BoolLike) (path : Option StrLike)
    (clean : Option BoolLike) (filter sparse_checkout : Option StrLike)
    (sparse_checkout_cone_mode : Option BoolLike)
    (fetch_depth : Option IntLike)
    (fetch_tags show_progress lfs submodules get_safe_directory :
      Option BoolLike)
    (github_server_url : Option StrLike) : Step :=
  let options : List (String × Option Value) := [
    ("repository", repository.map StrLike.toValue),
    ("ref", ref.map StrLike.toValue),
    ("token", token.map StrLike.toValue),
    ("ssh-key", ssh_key.map StrLike.toValue),
    ("ssh-known-hosts", ssh_known_hosts.map StrLike.toValue),
    ("ssh-strict", ssh_strict.map BoolLike.toValue),
    ("ssh-user", ssh_user.map StrLike.toValue),
    ("persist-credentials", persist_credentials.map BoolLike.toValue),
    ("path", path.map StrLike.toValue),
    ("clean", clean.map BoolLike.toValue),
    ("filter", filter.map StrLike.toValue),
    ("sparse-checkout", sparse_checkout.map StrLike.toValue),
    ("sparse-checkout-cone-mode",
      sparse_checkout_cone_mode.map BoolLike.toValue),
    ("fetch-depth", fetch_depth.map IntLike.toValue),
    ("fetch-tags", fetch_tags.map BoolLike.toValue),
    ("show-progress", show_progress.map BoolLike.toValue),
    ("lfs", lfs.map BoolLike.toValue),
    ("submodules", submodules.map BoolLike.toValue),
    ("get-safe-directory", get_safe_directory.map BoolLike.toValue),
    ("github-server-url", github_server_url.map StrLike.toValue)]
  let options := filterAbsent options
  let name :=
    match name with
    | some n => n.str
    | none =>
        match check_string (optGet options "repository") with
        | some repository_str =>
            if repository_str = "" then "Checkout Repository"
            else "Checkout \x27" ++ repository_str ++ "\x27"
        | none => "Checkout Repository"
  { name := name, action := "actions/checkout", ref := version,
    with_opts := orNone options }

/-- Embedding of `SetupRust.__new__`
(src/python/yamloom/actions/toolchains/rust.py): list-valued options are
joined (comma for components, newline for cache directories/workspaces),
`cache_provider` goes through `validate_choice`, `None` entries are
filtered, and the default display name is the constant "Setup Rust". -/
def SetupRust.new (name : Option StrLike) (version : String)
    (toolchain target : Option StrLike)
    (components : Option (List StrLike)) (cache : Option BoolLike)
    (cache_directories cache_workspaces : Option (List StrLike))
    (cache_on_failure : Option BoolLike)
    (cache_key cache_shared_key : Option StrLike)
    (cache_bin : Option BoolLike) (cache_provider : Option StrLike)
    (cache_all_crates cache_workspace_crates matcher : Option BoolLike)
    (rustflags : Option StrLike) (override : Option BoolLike)
    (rust_src_dir : Option StrLike) : Except String Step := do
  let provider ← validate_choice "cache_provider" cache_provider
    ["github", "buildjet", "warpbuild"]
  let options : List (String × Option Value) := [
    ("toolchain", toolchain.map StrLike.toValue),
    ("target", target.map StrLike.toValue),
    ("components",
      components.map (fun l => .vstr (strJoin "," (l.map StrLike.str)))),
    ("cache", cache.map BoolLike.toValue),
    ("cache-directories",
      cache_directories.map
        (fun l => .vstr (strJoin "\n" (l.map StrLike.str)))),
    ("cache-workspaces",
      cache_workspaces.map
        (fun l => .vstr (strJoin "\n" (l.map StrLike.str)))),
    ("cache-on-failure", cache_on_failure.map BoolLike.toValue),
    ("cache-key", cache_key.map StrLike.toValue),
    ("cache-shared-key", cache_shared_key.map StrLike.toValue),
    ("cache-bin", cache_bin.map BoolLike.toValue),
    ("cache-provider", provider.map StrLike.toValue),
    ("cache-all-crates", cache_all_crates.map BoolLike.toValue),
    ("cache-workspace-crates", cache_workspace_crates.map BoolLike.toValue),
    ("matcher", matcher.map BoolLike.toValue),
    ("rustflags", rustflags.map StrLike.toValue),
    ("override", override.map BoolLike.toValue),
    ("rust-src-dir", rust_src_dir.map StrLike.toValue)]
  let options := filterAbsent options
  let name :=
    match name with
    | some n => n.str
    | none => "Setup Rust"
  pure { name := name, ref := version, with_opts := orNone options,
         action := "actions-rust-lang/setup-rust-toolchain" }

/-- src/python/yamloom/actions/github/artifacts.py. -/
def WARN_RETENTION_DAYS : Int := 90

/-- src/python/yamloom/actions/github/artifacts.py. -/
def MAX_COMPRESSION_LEVEL : Int := 9

/-- Embedding of `UploadArtifact.__new__`
(src/python/yamloom/actions/github/artifacts.py).  The option dict is
built first (running `validate_choice` on `if_no_files_found`), then a
literal `retention_days` below 1 and a literal `compression_level` outside
0..`MAX_COMPRESSION_LEVEL` raise `ValueError` (the over-90 retention
branch only prints a warning, and the dict re-assignments store the value
already present); `None` entries are filtered; a default display name is
derived from `options.get('artifact_name')` — a key that the mapping never
contains, the artifact name being stored under the key `'name'`. -/
def UploadArtifact.new (path : StrLike) (name : Option StrLike)
    (version : String) (artifact_name if_no_files_found : Option StrLike)
    (retention_days compression_level : Option IntLike)
    (overwrite include_hidden_files : Option BoolLike) :
    Except String Step := do
  let inff ← validate_choice "if_no_files_found" if_no_files_found
    ["warn", "error", "ignore"]
  let options : List (String × Option Value) := [
    ("path", some path.toValue),
    ("name", artifact_name.map StrLike.toValue),
    ("if_no_files_found", inff.map StrLike.toValue),
    ("retention-days", retention_days.map IntLike.toValue),
    ("compression-level", compression_level.map IntLike.toValue),
    ("overwrite", overwrite.map BoolLike.toValue),
    ("include-hidden-files", include_hidden_files.map BoolLike.toValue)]
  match retention_days with
  | some (.lit n) =>
      if n < 1 then throw "retention days must be > 0" else pure ()
  | _ => pure ()
  match compression_level with
  | some (.lit n) =>
      if n < 0 ∨ n > MAX_COMPRESSION_LEVEL then
        throw ("compression level must be in the range 0-" ++
          toString MAX_COMPRESSION_LEVEL)
      else pure ()
  | _ => pure ()
  let options := filterAbsent options
  let name :=
    match name with
    | some n => n.str
    | none =>
        match check_string (optGet options "artifact_name") with
        | some artifact_str =>
            if artifact_str = "" then "Upload Artifact"
            else "Upload " ++ artifact_str
        | none => "Upload Artifact"
  pure { name := name, action := "actions/upload-artifact",
         ref := version, with_opts := orNone options }

/-- An access level of a permission scope. -/
inductive Level where
  | read
  | write
  deriving DecidableEq

/-- Modelled from the spec: a Permissions value maps each named permission
scope to its access level, absent scopes to `none` (the Permissions class
is not under the repository sources). -/
def Permissions : Type := String → Option Level

/-- Combining the levels two operands assign to one scope: the union keeps
a scope present in either operand, and on a conflict "write" dominates
"read". -/
def combineLevel : Option Level → Option Level → Option Level
  | none, b => b
  | some a, none => some a
  | some a, some b =>
      some (if a = Level.write ∨ b = Level.write then Level.write
        else Level.read)

/-- Modelled from the spec: the Permissions merge operation — "union of
scopes; on conflicting access level for the same scope, write dominates
read". -/
def Permissions.merge (p q : Permissions) : Permissions :=
  fun scope => combineLevel (p scope) (q scope)

/-- Modelled from the spec: a Job holds either a non-empty step sequence
plus a runner specification, or a reusable-workflow reference (the Job
class is not under the repository sources). -/
structure Job where
  steps : Option (List Step)
  runs_on : Option StrLike
  uses : Option String
  deriving DecidableEq

/-- Whether a runner specification resolves to a secret-rooted
Expression. -/
def secretRooted : StrLike → Bool
  | .lit _ => false
  | .expr e => decide (e.path.head? = some "secrets")

/-- Modelled from the spec: Job construction and its structural validity
checks — "fails with a ConfigurationError if neither steps+runs_on nor
uses is provided; fails if both are provided; fails if uses is provided
together with steps; fails if runs_on is provided with an empty step
sequence; fails if runs_on resolves to a secret-rooted Expression" (the
Job class is not under the repository sources; its tests are in
src/tests/test_validation.py). -/
def Job.new (steps : Option (List Step)) (runs_on : Option StrLike)
    (uses : Option String) : Except String Job :=
  match uses with
  | some u =>
      if steps ≠ none ∨ runs_on ≠ none then
        .error "a job takes either steps and runs_on or uses, not both"
      else
        .ok { steps := none, runs_on := none, uses := some u }
  | none =>
      match runs_on with
      | none => .error "a job requires either steps and runs_on or uses"
      | some r =>
          match steps with
          | none => .error "runs_on requires a non-empty list of steps"
          | some [] => .error "runs_on requires a non-empty list of steps"
          | some ss =>
              if secretRooted r then
                .error "runs_on must not be a secrets-derived expression"
              else
                .ok { steps := some ss, runs_on := some r, uses := none }

/-- Splitting a character sequence at newline characters; the embedding of
line splitting for block-scalar rendering. -/
def splitLines : List Char → List (List Char)
  | [] => [[]]
  | c :: cs =>
      match splitLines cs with
      | [] => [[]]
      | l :: ls => if c = '\n' then [] :: l :: ls else (c :: l) :: ls

/-- Joining lines back with newline characters. -/
def joinLines : List (List Char) → List Char
  | [] => []
  | [l] => l
  | l :: l₂ :: ls => l ++ '\n' :: joinLines (l₂ :: ls)

/-- Modelled from the spec: the serializer's rendering of a Step's shell
`run` content (the serializer is not under the repository sources).
Content containing an actual newline character renders as a block scalar,
one output line per content line; content without a real newline renders
as one inline line carrying the content verbatim, so escape sequences such
as the two characters backslash+n are kept as written. -/
def renderRunLines (content : List Char) : List (List Char) :=
  if '\n' ∈ content then
    "run: |-".data :: (splitLines content).map (fun l => "  ".data ++ l)
  else
    ["run: ".data ++ content]

/-! ### Helper lemmas about contiguous containment -/

theorem seqPrefixB_self_append (s t : List Char) :
    seqPrefixB s (s ++ t) = true := by
  induction s with
  | nil => rfl
  | cons a as ih => simp [seqPrefixB, ih]

theorem containsSeqB_of_seqPrefixB {s l : List Char}
    (h : seqPrefixB s l = true) : containsSeqB s l = true := by
  cases l with
  | nil =>
      cases s with
      | nil => rfl
      | cons a as => simp [seqPrefixB] at h
  | cons c rest => simp [containsSeqB, h]

theorem containsSeqB_cons {s l : List Char} (c : Char)
    (h : containsSeqB s l = true) : containsSeqB s (c :: l) = true := by
  simp [containsSeqB, h]

theorem containsSeqB_append_left {s l : List Char} (a : List Char)
    (h : containsSeqB s l = true) : containsSeqB s (a ++ l) = true := by
  induction a with
  | nil => simpa using h
  | cons c cs ih => simpa using containsSeqB_cons c ih

theorem containsSeqB_self_append (s t : List Char) :
    containsSeqB s (s ++ t) = true :=
  containsSeqB_of_seqPrefixB (seqPrefixB_self_append s t)

theorem containsSeqB_mid (s a t : List Char) :
    containsSeqB s (a ++ (s ++ t)) = true :=
  containsSeqB_append_left a (containsSeqB_self_append s t)

theorem seqPrefixB_append_right {s l : List Char} (t : List Char)
    (h : seqPrefixB s l = true) : seqPrefixB s (l ++ t) = true := by
  induction s generalizing l with
  | nil => rfl
  | cons a as ih =>
      cases l with
      | nil => simp [seqPrefixB] at h
      | cons b bs =>
          by_cases hab : a = b
          · subst hab
            simp only [seqPrefixB, if_pos rfl] at h ⊢
            exact ih h
          · simp [seqPrefixB, hab] at h

theorem containsSeqB_nil_left (t : List Char) :
    containsSeqB [] t = true := by
  cases t with
  | nil => rfl
  | cons c rest => simp [containsSeqB, seqPrefixB]

theorem containsSeqB_append_right {s l : List Char} (t : List Char)
    (h : containsSeqB s l = true) : containsSeqB s (l ++ t) = true := by
  induction l with
  | nil =>
      have hs : s = [] := by simpa [containsSeqB] using h
      subst hs
      simpa using containsSeqB_nil_left t
  | cons c rest ih =>
      rcases Bool.or_eq_true_iff.1 (by simpa [containsSeqB] using h) with
        hpre | hrest
      · exact containsSeqB_of_seqPrefixB
          (by simpa using seqPrefixB_append_right (l := c :: rest) t hpre)
      · exact containsSeqB_cons c (ih hrest)

theorem containsSeqB_sandwich {s m : List Char} (a t : List Char)
    (h : containsSeqB s m = true) :
    containsSeqB s (a ++ (m ++ t)) = true :=
  containsSeqB_append_left a (containsSeqB_append_right t h)

theorem containsSeqB_refl (s : List Char) : containsSeqB s s = true := by
  simpa using containsSeqB_self_append s []

theorem strJoin_mem {s : String} {l : List String} (sep : String)
    (h : s ∈ l) : containsSeqB s.data (strJoin sep l).data = true := by
  induction l with
  | nil => cases h
  | cons x xs ih =>
      cases xs with
      | nil =>
          rcases List.mem_cons.1 h with rfl | h2
          · simpa [strJoin] using
              containsSeqB_self_append s.data []
          · cases h2
      | cons y ys =>
          rcases List.mem_cons.1 h with rfl | h2
          · have := containsSeqB_self_append s.data
              (sep.data ++ (strJoin sep (y :: ys)).data)
            simpa [strJoin, String.data_append, List.append_assoc] using this
          · have := containsSeqB_append_left (x.data ++ sep.data) (ih h2)
            simpa [strJoin, String.data_append, List.append_assoc] using this

theorem choiceMessage_mentions (option_name : String)
    (choices : List String) :
    containsSeqB option_name.data (choiceMessage option_name choices).data
        = true ∧
    ∀ c ∈ choices,
      containsSeqB ("\x27" ++ c ++ "\x27").data
        (choiceMessage option_name choices).data = true := by
  constructor
  · by_cases hlen : choices.length > 2
    · have := containsSeqB_sandwich (s := option_name.data)
        (m := option_name.data) "\x27".data
        ("\x27 must be ".data ++
          ((strJoin ", " ((choices.map
              (fun x => "\x27" ++ x ++ "\x27")).dropLast)).data ++
            (", or ".data ++
              (((choices.map
                (fun x => "\x27" ++ x ++ "\x27")).getLast?.getD "").data))))
        (containsSeqB_refl option_name.data)
      simpa [choiceMessage, hlen, String.data_append, List.append_assoc]
        using this
    · have := containsSeqB_sandwich (s := option_name.data)
        (m := option_name.data) "\x27".data
        ("\x27 must be ".data ++
          (strJoin " or " (choices.map
            (fun x => "\x27" ++ x ++ "\x27"))).data)
        (containsSeqB_refl option_name.data)
      simpa [choiceMessage, hlen, String.data_append, List.append_assoc]
        using this
  · intro c hc
    have hmem : ("\x27" ++ c ++ "\x27") ∈
        choices.map (fun x => "\x27" ++ x ++ "\x27") :=
      List.mem_map.2 ⟨c, hc, rfl⟩
    by_cases hlen : choices.length > 2
    · set qc := choices.map (fun x => "\x27" ++ x ++ "\x27") with hqc
      have hne : qc ≠ [] := by
        intro hnil
        rw [hnil] at hmem
        cases hmem
      have hsplit : qc.dropLast ++ [qc.getLast hne] = qc :=
        List.dropLast_append_getLast hne
      have hlast : qc.getLast? = some (qc.getLast hne) :=
        List.getLast?_eq_getLast qc hne
      rcases List.mem_append.1 (hsplit ▸ hmem) with hdl | hl
      · have hjoin := strJoin_mem ", " hdl
        have := containsSeqB_sandwich
          ("\x27".data ++ (option_name.data ++ "\x27 must be ".data))
          (", or ".data ++ ((qc.getLast?.getD "").data)) hjoin
        simpa [choiceMessage, hlen, hqc, String.data_append,
          List.append_assoc] using this
      · have hlq : qc.getLast hne = ("\x27" ++ c ++ "\x27") :=
          (List.mem_singleton.1 hl).symm
        have hq2 : qc.getLast?.getD "" = "\x27" ++ c ++ "\x27" := by
          rw [hlast]
          simpa using hlq
        have hq3 : (Option.map (fun x => "\x27" ++ x ++ "\x27")
            choices.getLast?).getD "" = "\x27" ++ c ++ "\x27" := by
          have := hq2
          rw [hqc, List.getLast?_map] at this
          exact this
        have hbig := containsSeqB_append_left
          ("\x27".data ++ (option_name.data ++ ("\x27 must be ".data ++
            ((strJoin ", " qc.dropLast).data ++ ", or ".data))))
          (containsSeqB_refl ("\x27" ++ c ++ "\x27").data)
        simpa [choiceMessage, hlen, hqc, hq2, hq3, String.data_append,
          List.append_assoc] using hbig
    · have hjoin := strJoin_mem " or " hmem
      have := containsSeqB_append_left
        ("\x27".data ++ (option_name.data ++ "\x27 must be ".data)) hjoin
      simpa [choiceMessage, hlen, String.data_append, List.append_assoc]
        using this

/-! ### Claim theorems -/

/-- C1: `validate_choice` lowercases the value but tests membership on the
original value, so the literal `'VALUE'` against allowed values
`['value', 'other']` raises the invalid-choice `ValueError` instead of
returning the case-normalized `'value'`: the claimed case-insensitive
acceptance does not hold on the code. -/
theorem validate_choice_rejects_uppercase_match :
    validate_choice "field" (some (.lit "VALUE")) ["value", "other"] =
      .error "\x27field\x27 must be \x27value\x27 or \x27other\x27" := by
  rfl

/-- C5: for every field name and literal value not contained in the
allowed values, `validate_choice` raises the invalid-choice error, and the
error message contains the field name and every allowed value (each in
quotes). -/
theorem validate_choice_invalid_names_field_and_choices
    (option_name s : String) (choices : List String)
    (h : s ∉ choices) :
    validate_choice option_name (some (.lit s)) choices =
      .error (choiceMessage option_name choices) ∧
    containsSeqB option_name.data
      (choiceMessage option_name choices).data = true ∧
    ∀ c ∈ choices,
      containsSeqB ("\x27" ++ c ++ "\x27").data
        (choiceMessage option_name choices).data = true := by
  refine ⟨?_, (choiceMessage_mentions option_name choices).1,
    (choiceMessage_mentions option_name choices).2⟩
  simp [validate_choice, h]

/-- Witness for C5 at the spec's concrete round-trip input. -/
theorem validate_choice_invalid_witness :
    ("bogus" : String) ∉ (["value", "other"] : List String) ∧
    (validate_choice "field" (some (.lit "bogus")) ["value", "other"] =
      .error (choiceMessage "field" ["value", "other"]) ∧
    containsSeqB "field".data
      (choiceMessage "field" ["value", "other"]).data = true ∧
    ∀ c ∈ (["value", "other"] : List String),
      containsSeqB ("\x27" ++ c ++ "\x27").data
        (choiceMessage "field" ["value", "other"]).data = true) :=
  ⟨by decide,
    validate_choice_invalid_names_field_and_choices "field" "bogus"
      ["value", "other"] (by decide)⟩

/-- C2: Job construction enforces that exactly one of steps+runs_on and
uses is populated: it errors when neither runs_on nor uses is given, when
runs_on and uses are both given, when uses is combined with steps, when
runs_on comes with an empty step list, and when runs_on is a secret-rooted
Expression. -/
theorem job_new_mutual_exclusion :
    (∀ steps, isError (Job.new steps none none) = true) ∧
    (∀ steps r u, isError (Job.new steps (some r) (some u)) = true) ∧
    (∀ ss u, isError (Job.new (some ss) none (some u)) = true) ∧
    (∀ r, isError (Job.new (some []) (some r) none) = true) ∧
    (∀ ss (e : Expression), e.path.head? = some "secrets" →
      isError (Job.new (some ss) (some (.expr e)) none) = true) := by
  refine ⟨?_, ?_, ?_, ?_, ?_⟩
  · intro steps
    simp [Job.new, isError]
  · intro steps r u
    simp [Job.new, isError]
  · intro ss u
    simp [Job.new, isError]
  · intro r
    simp [Job.new, isError]
  · intro ss e he
    cases ss with
    | nil => simp [Job.new, isError]
    | cons s rest => simp [Job.new, isError, secretRooted, he]

/-- Witness for C2: a job with one step whose runner is the secrets-rooted
Expression `secrets.github_token` is rejected. -/
theorem job_new_mutual_exclusion_witness :
    (Expression.mk ["secrets", "github_token"] .string).path.head? =
      some "secrets" ∧
    isError (Job.new
      (some [{ name := "s", action := "a", ref := "r", with_opts := none }])
      (some (.expr (Expression.mk ["secrets", "github_token"] .string)))
      none) = true :=
  ⟨rfl, job_new_mutual_exclusion.2.2.2.2
    [{ name := "s", action := "a", ref := "r", with_opts := none }]
    (Expression.mk ["secrets", "github_token"] .string) rfl⟩

/-- The split of a character sequence at newlines joins back to the
original sequence: block-scalar rendering loses no line content. -/
theorem joinLines_splitLines (c : List Char) :
    joinLines (splitLines c) = c := by
  induction c with
  | nil => rfl
  | cons ch cs ih =>
      cases hsp : splitLines cs with
      | nil =>
          cases cs with
          | nil => simp [splitLines] at hsp
          | cons c2 cs2 =>
              rw [splitLines] at hsp
              cases h2 : splitLines cs2 with
              | nil => rw [h2] at hsp; simp at hsp
              | cons l ls => rw [h2] at hsp; by_cases hc2 : c2 = '\n' <;>
                  simp [hc2] at hsp
      | cons l ls =>
          rw [hsp] at ih
          by_cases hch : ch = '\n'
          · subst hch
            simp [splitLines, hsp, joinLines, ih]
          · cases ls with
            | nil =>
                simp [splitLines, hsp, hch, joinLines] at ih ⊢
                simp [ih]
            | cons l2 ls2 =>
                simp [splitLines, hsp, hch, joinLines] at ih ⊢
                simp [ih]

/-- C3: shell content with at least one actual newline renders as a block
scalar whose lines are exactly the content's lines (joining them with
newlines restores the content, so line breaks are preserved literally);
content without a real newline — in particular content whose only control
sequences are the two characters backslash+n — renders as a single inline
line carrying the content verbatim, so the two-character sequence is
neither turned into a real line break nor double-escaped. -/
theorem render_run_content (c : List Char) :
    ('\n' ∈ c →
      renderRunLines c =
        "run: |-".data :: (splitLines c).map (fun l => "  ".data ++ l) ∧
      joinLines (splitLines c) = c) ∧
    ('\n' ∉ c → renderRunLines c = ["run: ".data ++ c]) := by
  constructor
  · intro hmem
    exact ⟨by simp [renderRunLines, hmem], joinLines_splitLines c⟩
  · intro hmem
    simp [renderRunLines, hmem]

/-- Witness for C3: a three-line script renders as a block scalar with the
lines intact, and the printf line whose only `\n` is the two-character
escape sequence renders inline and verbatim. -/
theorem render_run_content_witness :
    ('\n' ∈ ("echo a\necho b\necho c").data ∧
      (renderRunLines ("echo a\necho b\necho c").data =
        "run: |-".data :: (splitLines ("echo a\necho b\necho c").data).map
          (fun l => "  ".data ++ l) ∧
      joinLines (splitLines ("echo a\necho b\necho c").data) =
        ("echo a\necho b\necho c").data)) ∧
    ('\n' ∉ ("printf \"%s\\n\" $VERSIONS >> version.txt").data ∧
      renderRunLines ("printf \"%s\\n\" $VERSIONS >> version.txt").data =
        ["run: ".data ++
          ("printf \"%s\\n\" $VERSIONS >> version.txt").data]) :=
  ⟨⟨by decide,
    (render_run_content ("echo a\necho b\necho c").data).1 (by decide)⟩,
   ⟨by decide,
    (render_run_content
      ("printf \"%s\\n\" $VERSIONS >> version.txt").data).2 (by decide)⟩⟩

/-- C4: the Permissions merge is associative, commutative and idempotent;
it acts scope-wise as `combineLevel`, which resolves a read/write conflict
to write in either order. -/
theorem permissions_merge_algebra :
    (∀ p q r : Permissions, (p.merge q).merge r = p.merge (q.merge r)) ∧
    (∀ p q : Permissions, p.merge q = q.merge p) ∧
    (∀ p : Permissions, p.merge p = p) ∧
    (∀ (p q : Permissions) (scope : String),
      p.merge q scope = combineLevel (p scope) (q scope)) ∧
    combineLevel (some .read) (some .write) = some .write ∧
    combineLevel (some .write) (some .read) = some .write := by
  refine ⟨?_, ?_, ?_, fun _ _ _ => rfl, rfl, rfl⟩
  · intro p q r
    funext s
    show combineLevel (combineLevel (p s) (q s)) (r s) =
      combineLevel (p s) (combineLevel (q s) (r s))
    rcases p s with _ | (_ | _) <;> rcases q s with _ | (_ | _) <;>
      rcases r s with _ | (_ | _) <;> decide
  · intro p q
    funext s
    show combineLevel (p s) (q s) = combineLevel (q s) (p s)
    rcases p s with _ | (_ | _) <;> rcases q s with _ | (_ | _) <;> decide
  · intro p
    funext s
    show combineLevel (p s) (p s) = p s
    rcases p s with _ | (_ | _) <;> decide

/-! ### Helper lemmas about option-mapping filtering -/

theorem except_bind_ok {α β : Type} (a : α)
    (f : α → Except String β) :
    (Except.ok a : Except String α) >>= f = f a := rfl

theorem except_bind_error {α β : Type} (e : String)
    (f : α → Except String β) :
    (Except.error e : Except String α) >>= f =
      (Except.error e : Except String β) := rfl

theorem except_pure_eq_ok {α : Type} (a : α) :
    (pure a : Except String α) = Except.ok a := rfl

theorem mem_filterAbsent_isSome {l : List (String × Option Value)}
    {kv : String × Option Value} (h : kv ∈ filterAbsent l) :
    kv.2.isSome = true :=
  (List.mem_filter.1 h).2

theorem mem_orNone_getD {l : List (String × Option Value)}
    {kv : String × Option Value} (h : kv ∈ (orNone l).getD []) :
    kv ∈ l := by
  by_cases he : l = []
  · subst he
    simp [orNone] at h
  · simpa [orNone, he] using h

theorem orNone_getD_mem {l : List (String × Option Value)}
    {kv : String × Option Value} (h : kv ∈ l) :
    kv ∈ (orNone l).getD [] := by
  have hne : l ≠ [] := List.ne_nil_of_mem h
  simpa [orNone, hne] using h

theorem mem_filterAbsent_of {l : List (String × Option Value)}
    {kv : String × Option Value} (h1 : kv ∈ l)
    (h2 : kv.2.isSome = true) : kv ∈ filterAbsent l :=
  List.mem_filter.2 ⟨h1, h2⟩

theorem optGet_filterAbsent_none {l : List (String × Option Value)}
    {k : String} (h : ∀ kv ∈ l, kv.1 ≠ k) :
    optGet (filterAbsent l) k = none := by
  induction l with
  | nil => rfl
  | cons x xs ih =>
      have hx : x.1 ≠ k := h x (List.mem_cons_self x xs)
      have hxs : ∀ kv ∈ xs, kv.1 ≠ k :=
        fun kv hkv => h kv (List.mem_cons_of_mem x hkv)
      have hb : (k == x.1) = false := by
        simpa using fun hkx => hx hkx.symm
      by_cases hs : x.2.isSome = true
      · have : filterAbsent (x :: xs) = x :: filterAbsent xs := by
          simp [filterAbsent, List.filter_cons, hs]
        rw [this]
        rcases x with ⟨a, b⟩
        simpa [optGet, List.lookup, hb] using ih hxs
      · have : filterAbsent (x :: xs) = filterAbsent xs := by
          simp [filterAbsent, List.filter_cons, hs]
        rw [this]
        exact ih hxs

/-- C7: with `name` unset, a Checkout over a literal repository string
(truthy, no interpolation opener) gets the default display name
"Checkout '<repository>'", while a Checkout over an Expression-valued
repository falls back to the generic "Checkout Repository". -/
theorem checkout_default_name (version : String)
    (ref token ssh_key ssh_known_hosts : Option StrLike)
    (ssh_strict : Option BoolLike) (ssh_user : Option StrLike)
    (persist_credentials : Option BoolLike) (path : Option StrLike)
    (clean : Option BoolLike) (filter sparse_checkout : Option StrLike)
    (sparse_checkout_cone_mode : Option BoolLike)
    (fetch_depth : Option IntLike)
    (fetch_tags show_progress lfs submodules get_safe_directory :
      Option BoolLike)
    (github_server_url : Option StrLike) :
    (∀ s : String, s ≠ "" → strContains s "$\x7b\x7b" = false →
      (Checkout.new none version (some (.lit s)) ref token ssh_key
        ssh_known_hosts ssh_strict ssh_user persist_credentials path clean
        filter sparse_checkout sparse_checkout_cone_mode fetch_depth
        fetch_tags show_progress lfs submodules get_safe_directory
        github_server_url).name = "Checkout \x27" ++ s ++ "\x27") ∧
    (∀ e : Expression,
      (Checkout.new none version (some (.expr e)) ref token ssh_key
        ssh_known_hosts ssh_strict ssh_user persist_credentials path clean
        filter sparse_checkout sparse_checkout_cone_mode fetch_depth
        fetch_tags show_progress lfs submodules get_safe_directory
        github_server_url).name = "Checkout Repository") := by
  constructor
  · intro s h1 h2
    simp [Checkout.new, filterAbsent, List.filter_cons, optGet,
      List.lookup, check_string, StrLike.toValue, h1, h2]
  · intro e
    simp [Checkout.new, filterAbsent, List.filter_cons, optGet,
      List.lookup, check_string, StrLike.toValue]

/-- Witness for C7 at the spec's scenario inputs. -/
theorem checkout_default_name_witness :
    (("actions/checkout" : String) ≠ "" ∧
      strContains "actions/checkout" "$\x7b\x7b" = false ∧
      (Checkout.new none "v6" (some (.lit "actions/checkout")) none none
        none none none none none none none none none none none none none
        none none none none).name = "Checkout \x27actions/checkout\x27") ∧
    (Checkout.new none "v6"
      (some (.expr (Expression.mk ["github", "repository"] .string))) none
      none none none none none none none none none none none none none
      none none none none none).name = "Checkout Repository" :=
  ⟨⟨by decide, by decide,
    (checkout_default_name "v6" none none none none none none none none
      none none none none none none none none none none none).1
      "actions/checkout" (by decide) (by decide)⟩,
   (checkout_default_name "v6" none none none none none none none none
      none none none none none none none none none none none).2
      (Expression.mk ["github", "repository"] .string)⟩

/-- C8: a wrapper Step's attached option mapping never contains an entry
whose value is the unset sentinel (`None`), and when every option is unset
the Step carries no option mapping at all (`None`), not an empty mapping —
shown for the Checkout and SetupRust wrappers. -/
theorem wrapper_options_never_absent :
    (∀ (name : Option StrLike) (version : String)
      (repository ref token ssh_key ssh_known_hosts : Option StrLike)
      (ssh_strict : Option BoolLike) (ssh_user : Option StrLike)
      (persist_credentials : Option BoolLike) (path : Option StrLike)
      (clean : Option BoolLike) (filter sparse_checkout : Option StrLike)
      (sparse_checkout_cone_mode : Option BoolLike)
      (fetch_depth : Option IntLike)
      (fetch_tags show_progress lfs submodules get_safe_directory :
        Option BoolLike)
      (github_server_url : Option StrLike),
      ∀ kv ∈ ((Checkout.new name version repository ref token ssh_key
        ssh_known_hosts ssh_strict ssh_user persist_credentials path clean
        filter sparse_checkout sparse_checkout_cone_mode fetch_depth
        fetch_tags show_progress lfs submodules get_safe_directory
        github_server_url).with_opts.getD []), kv.2.isSome = true) ∧
    ((Checkout.new none "v6" none none none none none none none none none
      none none none none none none none none none none none).with_opts =
      none) ∧
    (∀ (name : Option StrLike) (version : String)
      (toolchain target : Option StrLike)
      (components : Option (List StrLike)) (cache : Option BoolLike)
      (cache_directories cache_workspaces : Option (List StrLike))
      (cache_on_failure : Option BoolLike)
      (cache_key cache_shared_key : Option StrLike)
      (cache_bin : Option BoolLike) (cache_provider : Option StrLike)
      (cache_all_crates cache_workspace_crates matcher : Option BoolLike)
      (rustflags : Option StrLike) (override : Option BoolLike)
      (rust_src_dir : Option StrLike) (st : Step),
      SetupRust.new name version toolchain target components cache
        cache_directories cache_workspaces cache_on_failure cache_key
        cache_shared_key cache_bin cache_provider cache_all_crates
        cache_workspace_crates matcher rustflags override rust_src_dir =
        .ok st →
      ∀ kv ∈ (st.with_opts.getD []), kv.2.isSome = true) ∧
    (SetupRust.new none "v1" none none none none none none none none none
      none none none none none none none none =
      .ok { name := "Setup Rust",
            action := "actions-rust-lang/setup-rust-toolchain",
            ref := "v1", with_opts := none }) := by
  refine ⟨?_, by decide, ?_, by rfl⟩
  · intro name version repository ref token ssh_key ssh_known_hosts
      ssh_strict ssh_user persist_credentials path clean filter
      sparse_checkout sparse_checkout_cone_mode fetch_depth fetch_tags
      show_progress lfs submodules get_safe_directory github_server_url
      kv hkv
    exact mem_filterAbsent_isSome (mem_orNone_getD hkv)
  · intro name version toolchain target components cache cache_directories
      cache_workspaces cache_on_failure cache_key cache_shared_key
      cache_bin cache_provider cache_all_crates cache_workspace_crates
      matcher rustflags override rust_src_dir st h kv hkv
    cases hvc : validate_choice "cache_provider" cache_provider
        ["github", "buildjet", "warpbuild"] with
    | error e =>
        rw [SetupRust.new.eq_def, hvc, except_bind_error] at h
        exact Except.noConfusion h
    | ok provider =>
        rw [SetupRust.new.eq_def, hvc, except_bind_ok] at h
        simp only [except_pure_eq_ok, Except.ok.injEq] at h
        subst h
        exact mem_filterAbsent_isSome (mem_orNone_getD hkv)

/-- The Step produced by a SetupRust call whose only option is a literal
toolchain; used by the C8 witness. -/
def setupRustToolchainStep : Step :=
  { name := "Setup Rust",
    action := "actions-rust-lang/setup-rust-toolchain",
    ref := "v1",
    with_opts := some [("toolchain", some (.vstr "stable"))] }

/-- Witness for C8: a Checkout with only a repository option has exactly
that (present) entry; a SetupRust with only a toolchain option succeeds
with exactly that (present) entry. -/
theorem wrapper_options_never_absent_witness :
    (("repository", some (Value.vstr "octo/repo")) ∈
      ((Checkout.new none "v6" (some (.lit "octo/repo")) none none none
        none none none none none none none none none none none none none
        none none none).with_opts.getD []) ∧
      (("repository", some (Value.vstr "octo/repo")) :
        String × Option Value).2.isSome = true) ∧
    (SetupRust.new none "v1" (some (.lit "stable")) none none none none
      none none none none none none none none none none none none =
      .ok setupRustToolchainStep ∧
      (("toolchain", some (Value.vstr "stable")) :
        String × Option Value) ∈ (setupRustToolchainStep.with_opts.getD []) ∧
      (("toolchain", some (Value.vstr "stable")) :
        String × Option Value).2.isSome = true) :=
  ⟨⟨by decide,
    wrapper_options_never_absent.1 none "v6" (some (.lit "octo/repo"))
      none none none none none none none none none none none none none
      none none none none none none _ (by decide)⟩,
   ⟨by rfl, by decide,
    wrapper_options_never_absent.2.2.1 none "v1" (some (.lit "stable"))
      none none none none none none none none none none none none none
      none none none setupRustToolchainStep (by rfl) _ (by decide)⟩⟩

/-- C9: `resolve_target` returns the explicit `--file` path when given,
else the `LUPO_FILE` value when set, else the first of `.lupo.py` and
`lupo.py` that exists; when no strategy yields an existing script, `main`
fails (exit status 2) — both when resolution itself fails and when the
resolved explicit path does not exist. -/
theorem cli_resolution (p e : String) (env : Option String)
    (fs : List String) (r : Int) :
    (p ≠ "" → resolve_target (some p) env fs = .ok p) ∧
    (e ≠ "" → resolve_target none (some e) fs = .ok e) ∧
    (".lupo.py" ∈ fs →
      resolve_target none none fs = .ok ".lupo.py") ∧
    (".lupo.py" ∉ fs → "lupo.py" ∈ fs →
      resolve_target none none fs = .ok "lupo.py") ∧
    (".lupo.py" ∉ fs → "lupo.py" ∉ fs →
      isError (resolve_target none none fs) = true ∧
      main none none fs r = 2) ∧
    (p ≠ "" → p ∉ fs → main (some p) env fs r = 2) := by
  refine ⟨?_, ?_, ?_, ?_, ?_, ?_⟩
  · intro hp
    simp [resolve_target, truthy, hp]
  · intro he
    simp [resolve_target, truthy, he]
  · intro h1
    simp [resolve_target, truthy, DEFAULT_CANDIDATES, List.find?, h1]
  · intro h1 h2
    simp [resolve_target, truthy, DEFAULT_CANDIDATES, List.find?, h1, h2]
  · intro h1 h2
    constructor
    · simp [resolve_target, truthy, DEFAULT_CANDIDATES, List.find?, h1,
        h2, isError]
    · simp [main, resolve_target, truthy, DEFAULT_CANDIDATES, List.find?,
        h1, h2]
  · intro hp hex
    simp [main, resolve_target, truthy, hp, hex]

/-- Witness for C9: each resolution strategy at a concrete input, and the
two exit-2 failure paths of `main`. -/
theorem cli_resolution_witness :
    (resolve_target (some "wf.py") none ["lupo.py"] = .ok "wf.py") ∧
    (resolve_target none (some "gen.py") [] = .ok "gen.py") ∧
    (resolve_target none none [".lupo.py", "lupo.py"] = .ok ".lupo.py") ∧
    (resolve_target none none ["lupo.py"] = .ok "lupo.py") ∧
    (isError (resolve_target none none ["other.txt"]) = true ∧
      main none none ["other.txt"] 0 = 2) ∧
    (main (some "wf.py") none [] 0 = 2) :=
  ⟨(cli_resolution "wf.py" "" none ["lupo.py"] 0).1 (by decide),
   (cli_resolution "" "gen.py" none [] 0).2.1 (by decide),
   (cli_resolution "" "" none [".lupo.py", "lupo.py"] 0).2.2.1 (by decide),
   (cli_resolution "" "" none ["lupo.py"] 0).2.2.2.1 (by decide) (by decide),
   (cli_resolution "" "" none ["other.txt"] 0).2.2.2.2.1 (by decide)
     (by decide),
   (cli_resolution "wf.py" "" none [] 0).2.2.2.2.2 (by decide) (by decide)⟩

theorem except_throw_eq_error {α : Type} (e : String) :
    (throw e : Except String α) = Except.error e := rfl

/-- C6: an UploadArtifact whose `compression_level` is a literal int
outside 0..9 is rejected with the range `ValueError` (given the other
validated options pass), while a NumberExpression `compression_level`
bypasses the range check and lands in the option mapping unchanged. -/
theorem upload_artifact_compression_range (path : StrLike)
    (name artifact_name if_no_files_found : Option StrLike)
    (retention_days : Option IntLike)
    (overwrite include_hidden_files : Option BoolLike) (version : String)
    (hv : isError (validate_choice "if_no_files_found" if_no_files_found
      ["warn", "error", "ignore"]) = false)
    (hr : ∀ m : Int, retention_days = some (.lit m) → 1 ≤ m) :
    (∀ n : Int, n < 0 ∨ MAX_COMPRESSION_LEVEL < n →
      UploadArtifact.new path name version artifact_name if_no_files_found
        retention_days (some (.lit n)) overwrite include_hidden_files =
        .error ("compression level must be in the range 0-" ++
          toString MAX_COMPRESSION_LEVEL)) ∧
    (∀ e : Expression, ∃ st,
      UploadArtifact.new path name version artifact_name if_no_files_found
        retention_days (some (.expr e)) overwrite include_hidden_files =
        .ok st ∧
      ("compression-level", some (Value.vexpr e)) ∈
        (st.with_opts.getD [])) := by
  obtain ⟨inff, hvc⟩ : ∃ v,
      validate_choice "if_no_files_found" if_no_files_found
        ["warn", "error", "ignore"] = .ok v := by
    cases hc : validate_choice "if_no_files_found" if_no_files_found
        ["warn", "error", "ignore"] with
    | error msg => rw [hc] at hv; simp [isError] at hv
    | ok v => exact ⟨v, rfl⟩
  constructor
  · intro n hn
    rcases retention_days with _ | (⟨m⟩ | ⟨e1⟩)
    · rw [UploadArtifact.new.eq_def, hvc, except_bind_ok]
      simp [except_pure_eq_ok, except_bind_ok, except_bind_error,
        except_throw_eq_error, hn]
    · have hm : ¬ (m < 1) := by
        have := hr m rfl
        omega
      rw [UploadArtifact.new.eq_def, hvc, except_bind_ok]
      simp [except_pure_eq_ok, except_bind_ok, except_bind_error,
        except_throw_eq_error, hn, hm]
    · rw [UploadArtifact.new.eq_def, hvc, except_bind_ok]
      simp [except_pure_eq_ok, except_bind_ok, except_bind_error,
        except_throw_eq_error, hn]
  · intro e
    rcases retention_days with _ | (⟨m⟩ | ⟨e1⟩)
    · rw [UploadArtifact.new.eq_def, hvc, except_bind_ok]
      refine ⟨_, rfl, ?_⟩
      have h1 : ("compression-level", some (Value.vexpr e)) ∈
          [("path", some path.toValue),
           ("name", Option.map StrLike.toValue artifact_name),
           ("if_no_files_found", Option.map StrLike.toValue inff),
           ("retention-days", (none : Option Value)),
           ("compression-level", some (Value.vexpr e)),
           ("overwrite", Option.map BoolLike.toValue overwrite),
           ("include-hidden-files",
             Option.map BoolLike.toValue include_hidden_files)] := by
        simp
      exact orNone_getD_mem (mem_filterAbsent_of h1 rfl)
    · have hm : ¬ (m < 1) := by
        have := hr m rfl
        omega
      rw [UploadArtifact.new.eq_def, hvc, except_bind_ok]
      simp only [if_neg hm]
      refine ⟨_, rfl, ?_⟩
      have h1 : ("compression-level", some (Value.vexpr e)) ∈
          [("path", some path.toValue),
           ("name", Option.map StrLike.toValue artifact_name),
           ("if_no_files_found", Option.map StrLike.toValue inff),
           ("retention-days", some (Value.vint m)),
           ("compression-level", some (Value.vexpr e)),
           ("overwrite", Option.map BoolLike.toValue overwrite),
           ("include-hidden-files",
             Option.map BoolLike.toValue include_hidden_files)] := by
        simp
      exact orNone_getD_mem (mem_filterAbsent_of h1 rfl)
    · rw [UploadArtifact.new.eq_def, hvc, except_bind_ok]
      refine ⟨_, rfl, ?_⟩
      have h1 : ("compression-level", some (Value.vexpr e)) ∈
          [("path", some path.toValue),
           ("name", Option.map StrLike.toValue artifact_name),
           ("if_no_files_found", Option.map StrLike.toValue inff),
           ("retention-days", some (Value.vexpr e1)),
           ("compression-level", some (Value.vexpr e)),
           ("overwrite", Option.map BoolLike.toValue overwrite),
           ("include-hidden-files",
             Option.map BoolLike.toValue include_hidden_files)] := by
        simp
      exact orNone_getD_mem (mem_filterAbsent_of h1 rfl)

/-- Witness for C6: a literal compression level of 12 is rejected with the
range error; an Expression-valued compression level is accepted and stored
unchanged. -/
theorem upload_artifact_compression_range_witness :
    (isError (validate_choice "if_no_files_found" none
      ["warn", "error", "ignore"]) = false ∧
    ((12 : Int) < 0 ∨ MAX_COMPRESSION_LEVEL < 12) ∧
    UploadArtifact.new (.lit "dist") none "v6" none none none
      (some (.lit 12)) none none =
      .error ("compression level must be in the range 0-" ++
        toString MAX_COMPRESSION_LEVEL)) ∧
    (∃ st,
      UploadArtifact.new (.lit "dist") none "v6" none none none
        (some (.expr (Expression.mk ["matrix", "level"] .number))) none
        none = .ok st ∧
      ("compression-level",
        some (Value.vexpr (Expression.mk ["matrix", "level"] .number))) ∈
        (st.with_opts.getD [])) :=
  ⟨⟨by decide, by norm_num [MAX_COMPRESSION_LEVEL],
    (upload_artifact_compression_range (.lit "dist") none none none none
      none none "v6" (by decide) (fun m hm => by cases hm)).1 12
      (by norm_num [MAX_COMPRESSION_LEVEL])⟩,
   (upload_artifact_compression_range (.lit "dist") none none none none
      none none "v6" (by decide) (fun m hm => by cases hm)).2
      (Expression.mk ["matrix", "level"] .number)⟩

/-- C10: whatever the arguments, an UploadArtifact constructed with `name`
unset gets the generic display name "Upload Artifact" — the fallback looks
up the key `'artifact_name'` in an option mapping whose artifact name is
stored under `'name'`, so it never finds a value, even for a literal
`artifact_name`. -/
theorem upload_artifact_default_name_always_generic (path : StrLike)
    (artifact_name if_no_files_found : Option StrLike)
    (retention_days compression_level : Option IntLike)
    (overwrite include_hidden_files : Option BoolLike) (version : String)
    (st : Step)
    (h : UploadArtifact.new path none version artifact_name
      if_no_files_found retention_days compression_level overwrite
      include_hidden_files = .ok st) :
    st.name = "Upload Artifact" := by
  cases hvc : validate_choice "if_no_files_found" if_no_files_found
      ["warn", "error", "ignore"] with
  | error msg =>
      rw [UploadArtifact.new.eq_def, hvc, except_bind_error] at h
      exact Except.noConfusion h
  | ok inff =>
      rw [UploadArtifact.new.eq_def, hvc, except_bind_ok] at h
      have hkeys : optGet (filterAbsent
          [("path", some path.toValue),
           ("name", Option.map StrLike.toValue artifact_name),
           ("if_no_files_found", Option.map StrLike.toValue inff),
           ("retention-days", Option.map IntLike.toValue retention_days),
           ("compression-level",
             Option.map IntLike.toValue compression_level),
           ("overwrite", Option.map BoolLike.toValue overwrite),
           ("include-hidden-files",
             Option.map BoolLike.toValue include_hidden_files)])
          "artifact_name" = none := by
        apply optGet_filterAbsent_none
        intro kv hkv
        simp only [List.mem_cons, List.not_mem_nil, or_false] at hkv
        rcases hkv with rfl | rfl | rfl | rfl | rfl | rfl | rfl <;> simp
      simp only [hkeys, check_string] at h
      rcases retention_days with _ | (⟨m⟩ | ⟨e1⟩) <;>
        rcases compression_level with _ | (⟨n⟩ | ⟨e2⟩) <;>
        simp only [except_throw_eq_error, except_bind_error,
          except_pure_eq_ok, except_bind_ok] at h
      all_goals try split at h
      all_goals try split at h
      all_goals first
        | exact Except.noConfusion h
        | (simp only [Except.ok.injEq] at h
           subst h
           rfl)

/-- Witness for C10: an UploadArtifact with a literal artifact name
`'wheels'` and no display name still gets the generic name. -/
theorem upload_artifact_default_name_witness :
    UploadArtifact.new (.lit "dist") none "v6" (some (.lit "wheels")) none
      none none none none =
      .ok { name := "Upload Artifact", action := "actions/upload-artifact",
            ref := "v6",
            with_opts := some [("path", some (.vstr "dist")),
              ("name", some (.vstr "wheels"))] } ∧
    ({ name := "Upload Artifact", action := "actions/upload-artifact",
       ref := "v6",
       with_opts := some [("path", some (.vstr "dist")),
         ("name", some (.vstr "wheels"))] } : Step).name =
      "Upload Artifact" :=
  ⟨by rfl,
   upload_artifact_default_name_always_generic (.lit "dist")
     (some (.lit "wheels")) none none none none none "v6" _ (by rfl)⟩

end Yamloom
